import Mathlib

/-!
Verification development for the param reactive-attribute library as described
by its example notebooks and specification: the attribute change notifier
(validation, constant parameters, scoped constant override, watchers) and the
deterministic time-indexed value generators (numbergen).

The repository submission contains only the example notebooks
(`examples/Promo.ipynb`, `examples/user_guide/Dynamic_Parameters.ipynb`);
the library implementation itself (`param/`, `numbergen/`) is not included,
so the notifier and generator operations below are modelled from the
specification's contracts, while the `PythagoreanTheorem` example class is
translated from the notebook code directly.
-/

/-- Error taxonomy of the library, from the spec's error-handling design. -/
inductive PError where
  | validationError
  | constantViolation
  | cyclicDependency
  | unknownAttribute
  | generatorConfigError
deriving DecidableEq, Repr

/-- A parameter value: the examples use numeric parameters, and the
type-checking examples pass a string where a number is declared. -/
inductive PValue where
  | num (q : ℚ)
  | str (s : String)
deriving DecidableEq, Repr

/-- Modelled from the spec: an attribute declaration, missing from the
submission (`param.Parameter`): declared value type, optional numeric
bounds, default value, and mutability (constant) flag. -/
structure Decl where
  isNum : Bool
  lo : Option ℚ
  hi : Option ℚ
  default : PValue
  isConstant : Bool
deriving DecidableEq, Repr

/-- Lower-bound check against an optional declared bound. -/
def loOk (lo : Option ℚ) (q : ℚ) : Bool :=
  match lo with
  | none => true
  | some l => decide (l ≤ q)

/-- Upper-bound check against an optional declared bound. -/
def hiOk (hi : Option ℚ) (q : ℚ) : Bool :=
  match hi with
  | none => true
  | some h => decide (q ≤ h)

/-- Modelled from the spec: validation of a value against the attribute's
declared type and bounds (`param.Number._validate`, missing from the
submission). A numeric declaration accepts only in-bounds numbers; a
non-numeric declaration accepts only strings. -/
def validate (d : Decl) (v : PValue) : Bool :=
  match v with
  | .num q => d.isNum && loOk d.lo q && hiOk d.hi q
  | .str _ => !d.isNum

/-- A watcher registration: handle id and the observed attribute names. -/
structure Watcher where
  id : Nat
  attrs : List String
deriving DecidableEq, Repr

/-- A change event: attribute name with old and new value. -/
structure Event where
  attr : String
  old_value : PValue
  new_value : PValue
deriving DecidableEq, Repr

/-- Modelled from the spec: an owner instance (`param.Parameterized`,
missing from the submission): attribute declarations, current values,
the nesting depth of active scoped constant overrides, the registered
watchers, and the next fresh watcher handle. -/
structure Owner where
  decls : List (String × Decl)
  vals : List (String × PValue)
  overrideDepth : Nat
  watchers : List Watcher
  nextId : Nat
deriving DecidableEq, Repr

/-- Association-list lookup by attribute name. -/
def alist_lookup {α : Type} (l : List (String × α)) (k : String) : Option α :=
  match l with
  | [] => none
  | (k', v) :: rest => if k' = k then some v else alist_lookup rest k

/-- Association-list update of an existing key. -/
def alist_update {α : Type} (l : List (String × α)) (k : String) (v : α) :
    List (String × α) :=
  match l with
  | [] => []
  | (k', v') :: rest =>
    if k' = k then (k', v) :: rest else (k', v') :: alist_update rest k v

/-- Modelled from the spec: `set(owner, attribute, value)` validates the value
against the declared type/bounds (failing with `ValidationError`), rejects
writes to constant attributes outside a scoped override (failing with
`ConstantViolation`), and on success replaces the stored value and dispatches
one change event to every watcher observing the attribute, in registration
order. The returned list pairs each delivered event with the id of the
watcher whose reaction it invokes. -/
def Owner.set (o : Owner) (attr : String) (v : PValue) :
    Except PError (Owner × List (Nat × Event)) :=
  match alist_lookup o.decls attr with
  | none => .error .unknownAttribute
  | some d =>
    if !validate d v then .error .validationError
    else if d.isConstant && o.overrideDepth == 0 then .error .constantViolation
    else
      match alist_lookup o.vals attr with
      | none => .error .unknownAttribute
      | some old =>
        let ev : Event := ⟨attr, old, v⟩
        let deliveries :=
          (o.watchers.filter (fun w => w.attrs.contains attr)).map
            (fun w => (w.id, ev))
        .ok ({ o with vals := alist_update o.vals attr v }, deliveries)

/-- The owner state after a `set`: unchanged when the write fails
(no partial mutation), updated when it succeeds. -/
def applySet (o : Owner) (attr : String) (v : PValue) : Owner :=
  match Owner.set o attr v with
  | .ok (o2, _) => o2
  | .error _ => o

/-- State-passing form of `set` for use inside a scope body: on failure the
owner is returned unchanged together with the error. -/
def setS (o : Owner) (attr : String) (v : PValue) : Owner × Option PError :=
  match Owner.set o attr v with
  | .ok (o2, _) => (o2, none)
  | .error e => (o, some e)

/-- Modelled from the spec: `watch(owner, attribute_names, reaction)`
registers a watcher under a fresh handle and returns the handle. -/
def watch (o : Owner) (attrs : List String) : Owner × Nat :=
  ({ o with watchers := o.watchers ++ [⟨o.nextId, attrs⟩],
            nextId := o.nextId + 1 }, o.nextId)

/-- Modelled from the spec: `unwatch(handle)` removes a prior registration;
idempotent if already removed. -/
def unwatch (o : Owner) (wid : Nat) : Owner :=
  { o with watchers := o.watchers.filter (fun w => w.id ≠ wid) }

/-- Modelled from the spec: `param.edit_constant` — a scoped permission
allowing writes to constant attributes for the duration of the scope,
revoked on all exit paths (the override depth is restored whether or not
the body reports an error). -/
def editConstant (o : Owner) (body : Owner → Owner × Option PError) :
    Owner × Option PError :=
  let r := body { o with overrideDepth := o.overrideDepth + 1 }
  ({ r.1 with overrideDepth := r.1.overrideDepth - 1 }, r.2)

/-- The events a dispatch list delivers to one watcher handle. -/
def deliveredTo (ds : List (Nat × Event)) (wid : Nat) : List Event :=
  (ds.filter (fun x => x.1 == wid)).map (fun x => x.2)

/-- The binary arithmetic operators supported on number generators. -/
inductive Op where
  | add | sub | mul | div | floordiv | mod | pow
deriving DecidableEq, Repr

/-- Python floor division on rationals: `x // y = floor(x / y)`. -/
def pyFloorDiv (x y : ℚ) : ℚ := ((⌊x / y⌋ : ℤ) : ℚ)

/-- Python modulo on rationals: `x % y = x - y * floor(x / y)`. -/
def pyMod (x y : ℚ) : ℚ := x - y * ((⌊x / y⌋ : ℤ) : ℚ)

/-- Python power, modelled on rationals at integer exponents. -/
def pyPow (x y : ℚ) : ℚ := x ^ (⌊y⌋ : ℤ)

/-- Semantics of one binary operator. -/
def applyOp (op : Op) (x y : ℚ) : ℚ :=
  match op with
  | .add => x + y
  | .sub => x - y
  | .mul => x * y
  | .div => x / y
  | .floordiv => pyFloorDiv x y
  | .mod => pyMod x y
  | .pow => pyPow x y

/-- Clamp a value into optional bounds, as `BoundedNumber` does. -/
def cropToBounds (lo hi : Option ℚ) (x : ℚ) : ℚ :=
  let x1 := match lo with | none => x | some l => max l x
  match hi with | none => x1 | some h => min h x1

/-- Modelled from the spec: the composition graph of time-dependent number
generator nodes (numbergen, missing from the submission). Leaves are either
a constant (not time dependent) or a closed-form function of the time index
(`ScaledTime`, `BoxCar`); composite nodes combine children with arithmetic
operators; `BoundedNumber` silently crops a child's result to bounds. -/
inductive NG where
  | const (v : ℚ)
  | scaledTime (factor : ℚ)
  | boxCar (onset : ℚ) (duration : Option ℚ)
  | bin (op : Op) (g h : NG)
  | neg (g : NG)
  | absNode (g : NG)
  | boundedNumber (g : NG) (lo hi : Option ℚ)
deriving DecidableEq, Repr

/-- Modelled from the spec: `read()` of a generator node at time index `t`.
`ScaledTime(factor)` is `factor * t`; `BoxCar(onset, duration)` is 1.0 in the
exclusive interval `(onset, onset + duration)` and zero at all other times
(with `duration = None` a step function); composite arithmetic nodes apply
the operator to the children's `read()` results; `BoundedNumber` crops. -/
def NG.read (g : NG) (t : ℚ) : ℚ :=
  match g with
  | .const v => v
  | .scaledTime factor => factor * t
  | .boxCar onset duration =>
    if onset < t then
      match duration with
      | none => 1
      | some d => if t < onset + d then 1 else 0
    else 0
  | .bin op g h => applyOp op (g.read t) (h.read t)
  | .neg g => -(g.read t)
  | .absNode g => |g.read t|
  | .boundedNumber g lo hi => cropToBounds lo hi (g.read t)

/-- Modelled from the spec: the time-dependence flag of a node. Constants are
not time dependent; pure time functions are; a composite's flag is the
logical OR of its children's flags. -/
def NG.time_dependent (g : NG) : Bool :=
  match g with
  | .const _ => false
  | .scaledTime _ => true
  | .boxCar _ _ => true
  | .bin _ g h => g.time_dependent || h.time_dependent
  | .neg g => g.time_dependent
  | .absNode g => g.time_dependent
  | .boundedNumber g _ _ => g.time_dependent

/-- Modelled from the spec: the deterministic hash deriving a random state
from the node's name, its seed, the global seed, and the current time index
(the numbergen `Hash` class, missing from the submission). -/
def hashState (name seed gseed : Nat) (t : ℤ) : Nat :=
  (name * 2654435761 + seed * 40503 + gseed * 69069 +
    (2 * t.natAbs + if t < 0 then 1 else 0) * 2246822519) % 4294967296

/-- One step of the underlying pseudo-random stream (a linear congruential
update standing in for Python's Mersenne twister). -/
def nextState (s : Nat) : Nat := (1664525 * s + 1013904223) % 4294967296

/-- The numeric value drawn from a random state, in `[0, 1)`. -/
def valueFromState (s : Nat) : ℚ := ((s % 4294967296 : ℕ) : ℚ) / 4294967296

/-- Modelled from the spec: the fixed configuration of a TimeAware random
number generator: its `name`, its `seed`, the global `param.random_seed`,
and its `time_dependent` parameter. -/
structure TimeAwareGen where
  name : Nat
  seed : Nat
  gseed : Nat
  timeDependentFlag : Bool
deriving DecidableEq, Repr

/-- Modelled from the spec: one `read()` of a TimeAware random generator,
given its mutable stream state and the current shared time index. With
`time_dependent = true` the random state is reseeded deterministically from
{node seed, node name, global seed, time index} — never from the previous
stream state — and the value is drawn from it; with `time_dependent = false`
a fresh value is drawn and the stream state advances. Returns the value and
the new stream state. -/
def readTA (g : TimeAwareGen) (st : Nat) (t : ℤ) : ℚ × Nat :=
  if g.timeDependentFlag then
    let h := hashState g.name g.seed g.gseed t
    (valueFromState h, h)
  else
    (valueFromState st, nextState st)

/-- The mutable cache of a `TimeSampledFn` wrapper: the last computed value
and the time index at which it was computed. -/
structure TSState where
  lastValue : ℚ
  lastTime : ℚ
deriving DecidableEq, Repr

/-- Modelled from the spec: one `read()` of `TimeSampledFn(period, fn)` at
time index `t`: returns the cached value unless the current time index has
advanced past `last_sample_time + period`, at which point it resamples from
its child and updates both the cached value and the recorded sample time. -/
def readTS (period : ℚ) (child : NG) (st : TSState) (t : ℚ) : ℚ × TSState :=
  if st.lastTime + period < t then
    let v := NG.read child t
    (v, ⟨v, t⟩)
  else
    (st.lastValue, st)

/-- A dynamic parameter slot holding a callable value: the mutable state of
the underlying generator together with the most recently computed value. -/
structure DynParam where
  genState : Nat
  lastValue : ℚ
deriving DecidableEq, Repr

/-- An ordinary access of a dynamic parameter: invokes the callable (one step
of the generator `f`), records the computed value, and returns it. -/
def access (f : Nat → ℚ × Nat) (p : DynParam) : ℚ × DynParam :=
  let r := f p.genState
  (r.1, ⟨r.2, r.1⟩)

/-- Modelled from the spec: `p.param.inspect_value(name)` — returns the most
recently computed value of a dynamic parameter without invoking the callable
(the generator state is untouched). -/
def inspect_value (p : DynParam) : ℚ × DynParam := (p.lastValue, p)

/-- The state of the `PythagoreanTheorem` example class from the Promo
notebook: side lengths `a`, `b` and the constant hypotenuse parameter `c`,
all `param.Number(default=0, bounds=(0,None))`. Values are rationals with
the square root supplied abstractly (standing in for `math.sqrt`). -/
structure PythagoreanTheorem where
  a : ℚ
  b : ℚ
  c : ℚ
deriving DecidableEq, Repr

/-- Modelled from the spec: assigning the constant parameter `c` — validated
against its bounds `(0, None)`, and rejected with `ConstantViolation` unless
a scoped constant override is active. -/
def set_c (override : Bool) (s : PythagoreanTheorem) (v : ℚ) :
    Except PError PythagoreanTheorem :=
  if v < 0 then .error .validationError
  else if !override then .error .constantViolation
  else .ok { s with c := v }

/-- `_update_hypotenuse` from the notebook: inside `param.edit_constant`,
sets `c` to `sqrt(a**2 + b**2)`. -/
def update_hypotenuse (sq : ℚ → ℚ) (s : PythagoreanTheorem) :
    Except PError PythagoreanTheorem :=
  set_c true s (sq (s.a ^ 2 + s.b ^ 2))

/-- Assigning side `a`: validated against bounds `(0, None)`; on success the
depends-declared watcher on `a` synchronously runs `_update_hypotenuse`
before the assignment returns. -/
def setA (sq : ℚ → ℚ) (s : PythagoreanTheorem) (v : ℚ) :
    Except PError PythagoreanTheorem :=
  if v < 0 then .error .validationError
  else update_hypotenuse sq { s with a := v }

/-- Assigning side `b`, symmetric to `setA`. -/
def setB (sq : ℚ → ℚ) (s : PythagoreanTheorem) (v : ℚ) :
    Except PError PythagoreanTheorem :=
  if v < 0 then .error .validationError
  else update_hypotenuse sq { s with b := v }

/-- `PythagoreanTheorem(a=a0, b=b0)`: the constructor sets the provided
values (validated) and then runs `_update_hypotenuse` to set `c`. -/
def mkPythagoreanTheorem (sq : ℚ → ℚ) (a0 b0 : ℚ) :
    Except PError PythagoreanTheorem :=
  if a0 < 0 ∨ b0 < 0 then .error .validationError
  else update_hypotenuse sq ⟨a0, b0, 0⟩

/-- The class invariant implied by the notebook: the hypotenuse equals the
square root of the sum of the squares of the sides. -/
def PythInv (sq : ℚ → ℚ) (s : PythagoreanTheorem) : Prop :=
  s.c = sq (s.a ^ 2 + s.b ^ 2)

/-- The dispatch list produced by a `set` (empty when the write fails). -/
def setDispatch (o : Owner) (attr : String) (v : PValue) :
    List (Nat × Event) :=
  match Owner.set o attr v with
  | .ok (_, ds) => ds
  | .error _ => []

/-- A mutable numeric attribute declared with bounds `(0, None)`, as `a` and
`b` in the Promo notebook. -/
def dMutable : Decl := ⟨true, some 0, none, .num 0, false⟩

/-- A constant numeric attribute declared with bounds `(0, None)`, as `c` in
the Promo notebook. -/
def dConst : Decl := ⟨true, some 0, none, .num 0, true⟩

/-- A concrete owner with one mutable attribute `a` (value 3) and one
constant attribute `c` (value 5), no watchers, used as a test instance. -/
def oExample : Owner :=
  ⟨[("a", dMutable), ("c", dConst)], [("a", .num 3), ("c", .num 5)], 0, [], 0⟩

theorem alist_lookup_update {α : Type} (l : List (String × α)) (k : String)
    (v w : α) (h : alist_lookup l k = some w) :
    alist_lookup (alist_update l k v) k = some v := by
  induction l with
  | nil => simp [alist_lookup] at h
  | cons p rest ih =>
    obtain ⟨k', v'⟩ := p
    by_cases hk : k' = k
    · simp [alist_lookup, alist_update, hk]
    · simp [alist_lookup, alist_update, hk] at h ⊢
      exact ih h

/-- C7: for every pair of generator nodes and every supported binary operator
(and for unary negation), the composite node is a generator whose `read()`
applies the operator to the children's `read()` results, and whose
time-dependence flag is the logical OR of its children's flags. -/
theorem composite_read_and_time_dependence (op : Op) (g h : NG) (t : ℚ) :
    NG.read (NG.bin op g h) t = applyOp op (NG.read g t) (NG.read h t)
    ∧ NG.time_dependent (NG.bin op g h) = (NG.time_dependent g || NG.time_dependent h)
    ∧ NG.read (NG.neg g) t = -(NG.read g t)
    ∧ NG.time_dependent (NG.neg g) = NG.time_dependent g :=
  ⟨rfl, rfl, rfl, rfl⟩

/-- C6: a `BoundedNumber` with bounds `(lo, hi)` clamps every `read()` result
of its child into `[lo, hi]`: the wrapper silently crops (it equals the
min/max clamp of the child's value, with no error), never returns more than
`hi`, and never returns less than `lo`. -/
theorem boundedNumber_clamps (g : NG) (lo hi t : ℚ) (hb : lo ≤ hi) :
    NG.read (NG.boundedNumber g (some lo) (some hi)) t
      = min hi (max lo (NG.read g t))
    ∧ lo ≤ NG.read (NG.boundedNumber g (some lo) (some hi)) t
    ∧ NG.read (NG.boundedNumber g (some lo) (some hi)) t ≤ hi := by
  refine ⟨rfl, ?_, ?_⟩
  · show lo ≤ min hi (max lo (NG.read g t))
    exact le_min hb (le_max_left _ _)
  · show min hi (max lo (NG.read g t)) ≤ hi
    exact min_le_left _ _

theorem boundedNumber_clamps_witness :
    (0 : ℚ) ≤ NG.read (NG.boundedNumber (NG.const 150) (some 0) (some 100)) 3
    ∧ NG.read (NG.boundedNumber (NG.const 150) (some 0) (some 100)) 3 ≤ 100 :=
  ⟨(boundedNumber_clamps (NG.const 150) 0 100 3 (by norm_num)).2.1,
   (boundedNumber_clamps (NG.const 150) 0 100 3 (by norm_num)).2.2⟩

/-- C8: `TimeSampledFn` returns the cached value (and leaves the cache
unchanged) while the current time index has not advanced past
`last_sample_time + period`; as soon as it has, `read()` resamples from the
child and updates both the cached value and the recorded sample time. -/
theorem timeSampledFn_cache (period : ℚ) (child : NG) (st : TSState) (t : ℚ) :
    (t ≤ st.lastTime + period → readTS period child st t = (st.lastValue, st))
    ∧ (st.lastTime + period < t →
        readTS period child st t = (NG.read child t, ⟨NG.read child t, t⟩)) := by
  constructor
  · intro h
    simp [readTS, not_lt.mpr h]
  · intro h
    simp [readTS, h]

theorem timeSampledFn_cache_witness :
    readTS 1 (NG.scaledTime 2) ⟨7, 0⟩ 1 = (7, ⟨7, 0⟩)
    ∧ readTS 1 (NG.scaledTime 2) ⟨7, 0⟩ 2 = (4, ⟨4, 2⟩) := by
  constructor
  · exact (timeSampledFn_cache 1 (NG.scaledTime 2) ⟨7, 0⟩ 1).1 (by norm_num)
  · have h := (timeSampledFn_cache 1 (NG.scaledTime 2) ⟨7, 0⟩ 2).2 (by norm_num)
    simpa [NG.read, show (2 : ℚ) * 2 = 4 by norm_num] using h

/-- C1: a time-dependent generator with fixed configuration is deterministic
in the shared time index: reading at `t0`, moving time to `t1 ≠ t0`, and
moving back to `t0` reproduces the original value exactly; and any two reads
at an unchanged time index (from any internal stream states) return
identical output. -/
theorem timed_generator_deterministic (g : TimeAwareGen) (s0 : Nat)
    (t0 t1 : ℤ) (hg : g.timeDependentFlag = true) (hne : t1 ≠ t0) :
    (readTA g (readTA g (readTA g s0 t0).2 t1).2 t0).1 = (readTA g s0 t0).1
    ∧ ∀ s s', (readTA g s t0).1 = (readTA g s' t0).1 := by
  constructor
  · simp [readTA, hg]
  · intro s s'
    simp [readTA, hg]

theorem timed_generator_deterministic_witness :
    (9 : ℤ) ≠ 5
    ∧ (readTA ⟨1, 2, 3, true⟩ (readTA ⟨1, 2, 3, true⟩
        (readTA ⟨1, 2, 3, true⟩ 0 5).2 9).2 5).1
      = (readTA ⟨1, 2, 3, true⟩ 0 5).1 :=
  ⟨by decide,
   (timed_generator_deterministic ⟨1, 2, 3, true⟩ 0 5 9 rfl (by decide)).1⟩

/-- C2 counterexample: `BoxCar(onset=0, duration=3)` uses an exclusive
interval `(0, 3)`, so `read()` at time index 0 returns 0.0 — not 1.0 as the
claim states. -/
theorem boxCar_claim_counterexample :
    ¬ NG.read (NG.boxCar 0 (some 3)) 0 = 1 := by
  norm_num [NG.read]

/-- C2 (amended): `BoxCar(onset=0, duration=3)` returns 1.0 at every time
index strictly inside the exclusive interval `(0, 3)` — in particular at
time indices 1 and 2 — and returns 0.0 at time index 0, at time index 3 and
beyond, and below 0. -/
theorem boxCar_amended (t : ℚ) :
    (0 < t ∧ t < 3 → NG.read (NG.boxCar 0 (some 3)) t = 1)
    ∧ (t ≤ 0 ∨ 3 ≤ t → NG.read (NG.boxCar 0 (some 3)) t = 0) := by
  constructor
  · rintro ⟨h0, h3⟩
    simp [NG.read, h0, h3]
  · rintro (h | h)
    · simp [NG.read, not_lt.mpr h]
    · by_cases h0 : 0 < t
      · simp [NG.read, h0, not_lt.mpr h]
      · simp [NG.read, h0]

theorem boxCar_amended_witness :
    NG.read (NG.boxCar 0 (some 3)) 1 = 1
    ∧ NG.read (NG.boxCar 0 (some 3)) 2 = 1
    ∧ NG.read (NG.boxCar 0 (some 3)) 0 = 0
    ∧ NG.read (NG.boxCar 0 (some 3)) 3 = 0 :=
  ⟨(boxCar_amended 1).1 (by norm_num), (boxCar_amended 2).1 (by norm_num),
   (boxCar_amended 0).2 (Or.inl le_rfl), (boxCar_amended 3).2 (Or.inr le_rfl)⟩

/-- C10: `inspect_value` returns the most recently computed value without
invoking the callable: it leaves the parameter state (generator state and
cached value) unchanged, any number of consecutive `inspect_value` calls
return the same value, and the next ordinary access produces exactly what it
would have produced without the inspections. -/
theorem inspect_value_no_side_effect (f : Nat → ℚ × Nat) (p : DynParam)
    (n : Nat) :
    inspect_value p = (p.lastValue, p)
    ∧ (fun q => (inspect_value q).2)^[n] p = p
    ∧ access f ((inspect_value p).2) = access f p :=
  ⟨rfl, Function.iterate_fixed rfl n, rfl⟩

/-- C4: a value outside the declared bounds or of the wrong declared type is
rejected: `set` fails with `ValidationError`, the failure surfaces directly
to the caller, and the owner (hence the stored value) is unchanged. -/
theorem set_invalid_value_rejected (o : Owner) (attr : String) (v : PValue)
    (d : Decl) (hd : alist_lookup o.decls attr = some d)
    (hv : validate d v = false) :
    Owner.set o attr v = .error .validationError ∧ applySet o attr v = o := by
  have hset : Owner.set o attr v = .error .validationError := by
    simp [Owner.set, hd, hv]
  exact ⟨hset, by simp [applySet, hset]⟩

theorem set_invalid_value_rejected_witness :
    Owner.set oExample "a" (.num (-1)) = .error .validationError
    ∧ applySet oExample "a" (.num (-1)) = oExample :=
  set_invalid_value_rejected oExample "a" (.num (-1)) dMutable (by decide)
    (by decide)

/-- C3: writing a constant attribute outside a scoped override fails with
`ConstantViolation` and leaves the owner unchanged; the same write inside
`edit_constant` succeeds and stores the value; the override depth is
restored when the scope exits — also on an error exit path — so a further
un-scoped write fails with `ConstantViolation` again. -/
theorem constant_write_scoped_override (o : Owner) (attr : String)
    (v : PValue) (d : Decl) (hd : alist_lookup o.decls attr = some d)
    (hconst : d.isConstant = true) (hv : validate d v = true)
    (hov : o.overrideDepth = 0) (old : PValue)
    (hold : alist_lookup o.vals attr = some old) :
    (Owner.set o attr v = .error .constantViolation ∧ applySet o attr v = o)
    ∧ ((editConstant o (fun oo => setS oo attr v)).2 = none
       ∧ alist_lookup ((editConstant o (fun oo => setS oo attr v)).1).vals attr
           = some v)
    ∧ ((editConstant o (fun oo => setS oo attr v)).1).overrideDepth = 0
    ∧ Owner.set ((editConstant o (fun oo => setS oo attr v)).1) attr v
        = .error .constantViolation
    ∧ (((editConstant o (fun oo => ((setS oo attr v).1,
          some PError.cyclicDependency))).1).overrideDepth = 0
       ∧ Owner.set ((editConstant o (fun oo => ((setS oo attr v).1,
          some PError.cyclicDependency))).1) attr v
            = .error .constantViolation) := by
  have h1 : Owner.set o attr v = .error .constantViolation := by
    simp [Owner.set, hd, hv, hconst, hov]
  have h2 : Owner.set { o with overrideDepth := 1 } attr v
      = .ok ({ o with overrideDepth := 1,
                      vals := alist_update o.vals attr v },
             (o.watchers.filter (fun w => w.attrs.contains attr)).map
               (fun w => (w.id, ⟨attr, old, v⟩))) := by
    simp [Owner.set, hd, hv, hconst, hold]
  refine ⟨⟨h1, by simp [applySet, h1]⟩, ⟨?_, ?_⟩, ?_, ?_, ?_, ?_⟩
  · simp [editConstant, setS, hov, h2]
  · simp [editConstant, setS, hov, h2]
    exact alist_lookup_update o.vals attr v old hold
  · simp [editConstant, setS, hov, h2]
  · simp only [editConstant, setS, hov, h2]
    simp [Owner.set, hd, hv, hconst]
  · simp [editConstant, setS, hov, h2]
  · simp only [editConstant, setS, hov, h2]
    simp [Owner.set, hd, hv, hconst]

theorem constant_write_scoped_override_witness :
    (Owner.set oExample "c" (.num 7) = .error .constantViolation
     ∧ applySet oExample "c" (.num 7) = oExample)
    ∧ (editConstant oExample (fun oo => setS oo "c" (.num 7))).2 = none
    ∧ alist_lookup
        ((editConstant oExample (fun oo => setS oo "c" (.num 7))).1).vals "c"
        = some (.num 7)
    ∧ Owner.set ((editConstant oExample (fun oo => setS oo "c" (.num 7))).1) "c"
        (.num 7) = .error .constantViolation := by
  have h := constant_write_scoped_override oExample "c" (.num 7) dConst
    (by decide) rfl (by decide) rfl (.num 5) (by decide)
  exact ⟨h.1, h.2.1.1, h.2.1.2, h.2.2.2.1⟩

theorem deliveredTo_append (xs ys : List (Nat × Event)) (wid : Nat) :
    deliveredTo (xs ++ ys) wid = deliveredTo xs wid ++ deliveredTo ys wid := by
  simp [deliveredTo]

theorem deliveredTo_nil_of_ids_ne (ws : List Watcher) (p : Watcher → Bool)
    (ev : Event) (wid : Nat) (h : ∀ w ∈ ws, w.id ≠ wid) :
    deliveredTo ((ws.filter p).map (fun w => (w.id, ev))) wid = [] := by
  induction ws with
  | nil => rfl
  | cons w rest ih =>
    have hw : w.id ≠ wid := h w (List.mem_cons_self _ _)
    have hrest : ∀ w' ∈ rest, w'.id ≠ wid :=
      fun w' hm => h w' (List.mem_cons_of_mem _ hm)
    by_cases hp : p w
    · simp only [List.filter_cons, hp, if_pos, List.map_cons]
      simpa [deliveredTo, hw] using ih hrest
    · simp only [List.filter_cons, hp, List.map_cons]
      simpa using ih hrest

theorem setDispatch_eq (o : Owner) (attr : String) (v : PValue) (d : Decl)
    (hd : alist_lookup o.decls attr = some d) (hv : validate d v = true)
    (hc : d.isConstant = false) (old : PValue)
    (hold : alist_lookup o.vals attr = some old) :
    setDispatch o attr v
      = (o.watchers.filter (fun (w : Watcher) => w.attrs.contains attr)).map
          (fun (w : Watcher) => (w.id, (⟨attr, old, v⟩ : Event))) := by
  simp [setDispatch, Owner.set, hd, hv, hc, hold]

/-- C5: after registering a watcher on attribute `X`, setting `X` to a new
value invokes its reaction exactly once, with a change event whose old value
is the previous stored value and whose new value is the value written; after
`unwatch` of that registration, the same mutation invokes the reaction zero
additional times. -/
theorem watcher_fires_once_then_zero (o : Owner) (attr : String) (v : PValue)
    (d : Decl) (hd : alist_lookup o.decls attr = some d)
    (hv : validate d v = true) (hc : d.isConstant = false)
    (old : PValue) (hold : alist_lookup o.vals attr = some old)
    (hfresh : ∀ w ∈ o.watchers, w.id ≠ o.nextId) :
    deliveredTo (setDispatch (watch o [attr]).1 attr v) (watch o [attr]).2
      = [⟨attr, old, v⟩]
    ∧ deliveredTo
        (setDispatch
          (unwatch (applySet (watch o [attr]).1 attr v) (watch o [attr]).2)
          attr v)
        (watch o [attr]).2
      = [] := by
  have hset1 : Owner.set (watch o [attr]).1 attr v
      = .ok ({ o with watchers := o.watchers ++ [(⟨o.nextId, [attr]⟩ : Watcher)],
                      nextId := o.nextId + 1,
                      vals := alist_update o.vals attr v },
             ((o.watchers ++ [(⟨o.nextId, [attr]⟩ : Watcher)]).filter
                (fun (w : Watcher) => w.attrs.contains attr)).map
                (fun (w : Watcher) => (w.id, (⟨attr, old, v⟩ : Event)))) := by
    simp [watch, Owner.set, hd, hv, hc, hold]
  have hlook2 : alist_lookup (alist_update o.vals attr v) attr = some v :=
    alist_lookup_update o.vals attr v old hold
  constructor
  · rw [setDispatch_eq (watch o [attr]).1 attr v d hd hv hc old hold]
    simp only [watch]
    rw [List.filter_append, List.map_append, deliveredTo_append,
      deliveredTo_nil_of_ids_ne o.watchers _ _ _ hfresh]
    simp [deliveredTo]
  · have happ : applySet (watch o [attr]).1 attr v
        = { o with watchers := o.watchers ++ [(⟨o.nextId, [attr]⟩ : Watcher)],
                   nextId := o.nextId + 1,
                   vals := alist_update o.vals attr v } := by
      simp only [applySet, hset1]
    rw [happ]
    have hunw : unwatch
        { o with watchers := o.watchers ++ [(⟨o.nextId, [attr]⟩ : Watcher)],
                 nextId := o.nextId + 1,
                 vals := alist_update o.vals attr v } (watch o [attr]).2
        = { o with watchers := (o.watchers ++ [(⟨o.nextId, [attr]⟩ : Watcher)]).filter
                     (fun (w : Watcher) => w.id ≠ o.nextId),
                   nextId := o.nextId + 1,
                   vals := alist_update o.vals attr v } := by
      simp [unwatch, watch]
    rw [hunw]
    rw [setDispatch_eq
      { o with watchers := (o.watchers ++ [(⟨o.nextId, [attr]⟩ : Watcher)]).filter
                 (fun (w : Watcher) => w.id ≠ o.nextId),
               nextId := o.nextId + 1,
               vals := alist_update o.vals attr v }
      attr v d hd hv hc v hlook2]
    refine deliveredTo_nil_of_ids_ne _ _ _ _ ?_
    intro w hw
    have hmem := (List.mem_filter.mp hw).2
    exact of_decide_eq_true hmem

theorem watcher_fires_once_then_zero_witness :
    deliveredTo (setDispatch (watch oExample ["a"]).1 "a" (.num 7))
        (watch oExample ["a"]).2
      = [⟨"a", .num 3, .num 7⟩]
    ∧ deliveredTo
        (setDispatch
          (unwatch (applySet (watch oExample ["a"]).1 "a" (.num 7))
            (watch oExample ["a"]).2)
          "a" (.num 7))
        (watch oExample ["a"]).2
      = [] :=
  watcher_fires_once_then_zero oExample "a" (.num 7) dMutable (by decide)
    (by decide) rfl (.num 3) (by decide) (by simp [oExample])

/-- C9: in the `PythagoreanTheorem` class, the invariant
`c = sqrt(a^2 + b^2)` holds after construction, and is re-established
before every successful assignment to `a` or `b` returns, because the
depends-declared watcher synchronously recomputes the constant parameter
`c` under a scoped constant override as part of each such assignment. -/
theorem pythagorean_hypotenuse_invariant (sq : ℚ → ℚ) (hsq : ∀ x, 0 ≤ sq x)
    (a0 b0 : ℚ) (ha : 0 ≤ a0) (hb : 0 ≤ b0) :
    (∃ s, mkPythagoreanTheorem sq a0 b0 = .ok s ∧ PythInv sq s)
    ∧ (∀ s v s', setA sq s v = .ok s' → PythInv sq s')
    ∧ (∀ s v s', setB sq s v = .ok s' → PythInv sq s') := by
  refine ⟨⟨⟨a0, b0, sq (a0 ^ 2 + b0 ^ 2)⟩, ?_, rfl⟩, ?_, ?_⟩
  · simp [mkPythagoreanTheorem, not_lt.mpr ha, not_lt.mpr hb,
      update_hypotenuse, set_c, not_lt.mpr (hsq (a0 ^ 2 + b0 ^ 2))]
  · intro s v s' h
    by_cases hv0 : v < 0
    · simp [setA, hv0] at h
    · simp [setA, hv0, update_hypotenuse, set_c,
        not_lt.mpr (hsq (v ^ 2 + s.b ^ 2))] at h
      simp [PythInv, ← h]
  · intro s v s' h
    by_cases hv0 : v < 0
    · simp [setB, hv0] at h
    · simp [setB, hv0, update_hypotenuse, set_c,
        not_lt.mpr (hsq (s.a ^ 2 + v ^ 2))] at h
      simp [PythInv, ← h]

theorem pythagorean_hypotenuse_invariant_witness :
    (∃ s, mkPythagoreanTheorem (fun x => |x|) 3 4 = .ok s
       ∧ PythInv (fun x => |x|) s)
    ∧ PythInv (fun x => |x|) ⟨3, 4, 25⟩ :=
  ⟨(pythagorean_hypotenuse_invariant (fun x => |x|) (fun x => abs_nonneg x)
      3 4 (by norm_num) (by norm_num)).1,
   by simp [PythInv]; norm_num⟩
